import Mathlib

/-!
Verification development for the pass-factory module (src/factory.ts):
bundle partitioning (directory mode and in-memory buffer mode) and trust
material resolution.  The TypeScript source is shallowly embedded: strings
are Lean `String`, byte buffers are `List Nat`, JavaScript objects used as
string-keyed maps are association lists, asynchronous fallible operations
are `Except JsError`, and the file system together with `path.resolve` is
an explicit `Env` parameter.  `Promise.all` fan-outs take an explicit
completion schedule so that order-independence of recombination is a
provable statement rather than an artifact of the embedding.
-/

/-! ## String primitives (JavaScript semantics on character lists) -/

/-- Decides whether `p` is a leading segment of `l` (used to embed the JS
substring test `String.prototype.includes`). -/
def isPrefixList : List Char → List Char → Bool
  | [], _ => true
  | _ :: _, [] => false
  | a :: as, b :: bs => a == b && isPrefixList as bs

/-- Decides whether `p` occurs contiguously anywhere inside `l`. -/
def hasSubList (p : List Char) : List Char → Bool
  | [] => p.isEmpty
  | c :: rest => isPrefixList p (c :: rest) || hasSubList p rest

/-- Embeds the JavaScript test `s.includes(pat)`. -/
def strIncludes (s pat : String) : Bool :=
  hasSubList pat.data s.data

/-- Embeds `s.toLowerCase()` for the ASCII names handled by the module. -/
def lowerStr (s : String) : String :=
  String.mk (s.data.map Char.toLower)

/-- Characters of the last `/`-separated segment of a path. -/
def afterLastSlash (l : List Char) : List Char :=
  (l.reverse.takeWhile (fun c => c != '/')).reverse

/-- Embeds `path.parse(s).base`: the final path segment. -/
def basenameStr (s : String) : String :=
  String.mk (afterLastSlash s.data)

/-- Suffix of `l` starting at its last dot, when one exists. -/
def lastDotSplit : List Char → Option (List Char)
  | [] => none
  | c :: rest =>
    match lastDotSplit rest with
    | some s => some s
    | none => if c == '.' then some (c :: rest) else none

/-- Embeds `path.extname(s)` / `path.parse(s).ext`: the extension of the
final segment, empty when the only dot is the leading character. -/
def extnameStr (s : String) : String :=
  match afterLastSlash s.data with
  | [] => ""
  | _ :: rest =>
    match lastDotSplit rest with
    | some e => String.mk e
    | none => ""

/-- Embeds `path.join(a, b)` for the non-degenerate segments this module
joins (a nonempty directory path and a plain entry name). -/
def pjoin (a b : String) : String :=
  a ++ "/" ++ b

theorem isPrefixList_iff (p l : List Char) :
    isPrefixList p l = true ↔ ∃ t, l = p ++ t := by
  induction p generalizing l with
  | nil => simp [isPrefixList]
  | cons a as ih =>
    cases l with
    | nil => simp [isPrefixList]
    | cons b bs =>
      simp only [isPrefixList, Bool.and_eq_true, beq_iff_eq, ih]
      constructor
      · rintro ⟨rfl, t, rfl⟩; exact ⟨t, rfl⟩
      · rintro ⟨t, h⟩
        cases h
        exact ⟨rfl, t, rfl⟩

theorem hasSubList_iff (p l : List Char) :
    hasSubList p l = true ↔ ∃ s t, l = s ++ p ++ t := by
  induction l with
  | nil =>
    simp only [hasSubList, List.isEmpty_iff]
    constructor
    · rintro rfl; exact ⟨[], [], rfl⟩
    · rintro ⟨s, t, h⟩
      rcases List.append_eq_nil.mp h.symm with ⟨h1, h2⟩
      exact (List.append_eq_nil.mp h1).2
  | cons c rest ih =>
    simp only [hasSubList, Bool.or_eq_true, isPrefixList_iff, ih]
    constructor
    · rintro (⟨t, h⟩ | ⟨s, t, h⟩)
      · exact ⟨[], t, by simp [h]⟩
      · exact ⟨c :: s, t, by simp [h]⟩
    · rintro ⟨s, t, h⟩
      cases s with
      | nil => exact Or.inl ⟨t, by simpa using h⟩
      | cons x xs =>
        simp only [List.cons_append, List.cons.injEq] at h
        exact Or.inr ⟨xs, t, h.2⟩

theorem strIncludes_iff (s pat : String) :
    strIncludes s pat = true ↔ ∃ a b, s.data = a ++ pat.data ++ b :=
  hasSubList_iff pat.data s.data

theorem afterLastSlash_no_slash (l : List Char) :
    ∀ c ∈ afterLastSlash l, c ≠ '/' := by
  intro c hc
  unfold afterLastSlash at hc
  rw [List.mem_reverse] at hc
  have := List.mem_takeWhile_imp hc
  simpa using this

theorem basenameStr_no_slash (s : String) :
    strIncludes (basenameStr s) "/" = false := by
  by_contra h
  rw [Bool.not_eq_false, strIncludes_iff] at h
  rcases h with ⟨a, b, hab⟩
  have hmem : '/' ∈ (basenameStr s).data := by
    rw [hab]
    have : '/' ∈ ("/" : String).data := by decide
    simp [this]
  exact afterLastSlash_no_slash s.data '/' hmem rfl

/-! ## Data model -/

/-- Byte content of a file (only lengths and equality matter here). -/
abbrev Buffer := List Nat

/-- A string-keyed mapping name → bytes, as an association list in
insertion order (embeds a plain JavaScript object used as a map). -/
abbrev BundleUnit := List (String × Buffer)

/-- Result of normalization: base bundle plus per-locale-folder bundles
(`PartitionedBundle` in schema.ts). -/
structure PartitionedBundle where
  bundle : BundleUnit
  l10nBundle : List (String × BundleUnit)
deriving DecidableEq

/-- Errors a JavaScript computation can surface.  `domain k a` embeds
`new Error(formatMessage(k, a))`; `raw` embeds `new Error(text)` with a
hardcoded text; `fsError code syscall path` embeds a Node.js filesystem
error object with its `code`, `syscall` and `path` properties;
`forgeError` embeds an error thrown by the node-forge PEM primitives
(such errors carry no `path` property). -/
inductive JsError where
  | domain (key arg : String)
  | raw (msg : String)
  | typeError (msg : String)
  | referenceError (msg : String)
  | fsError (code syscall p : String)
  | forgeError (msg : String)
deriving DecidableEq

deriving instance DecidableEq for Except

/-- The `path` property of an error, when present (`err.path`). -/
def JsError.pathProp : JsError → Option String
  | .fsError _ _ p => some p
  | _ => none

/-- The filesystem and path environment the module runs against:
`path.resolve` plus the promisified `readdir` / `readFile` used in
factory.ts (`readFileUtf8` is `readFile` with the utf8 encoding option,
used for certificate contents). -/
structure Env where
  resolve : String → String
  readDir : String → Except JsError (List String)
  readFile : String → Except JsError Buffer
  readFileUtf8 : String → Except JsError String

/-- Joins a list of already-settled tasks in index order, failing on the
first (index-wise) failed task — the result value of `Promise.all`. -/
def collectAll : List (Except JsError α) → Except JsError (List α)
  | [] => .ok []
  | .error e :: _ => .error e
  | .ok a :: ts =>
    match collectAll ts with
    | .ok as => .ok (a :: as)
    | .error e => .error e

/-- First rejection among the tasks in the temporal order `σ` in which the
tasks settle (indices outside the task list or pointing at fulfilled tasks
contribute nothing). -/
def firstSettledError (tasks : List (Except JsError α)) : List Nat → Option JsError
  | [] => none
  | i :: rest =>
    match tasks.get? i with
    | some (.error e) => some e
    | _ => firstSettledError tasks rest

/-- Embeds `Promise.all` with an explicit completion schedule `σ` (the
temporal order in which tasks settle): the surfaced rejection is the first
rejection in completion order, while a fulfilled result is always
recombined by original index, never by arrival order. -/
def promiseAllSched (tasks : List (Except JsError α)) (σ : List Nat) :
    Except JsError (List α) :=
  match firstSettledError tasks σ with
  | some e => .error e
  | none => collectAll tasks

/-- Modelled from the spec: `removeHidden` lives in utils.ts, which is not
among the sources; the spec says the candidate listing excludes hidden
entries, i.e. names beginning with a dot. -/
def removeHidden (names : List String) : List String :=
  names.filter (fun n =>
    match n.data with
    | [] => true
    | c :: _ => c != '.')

/-! ## Source normalizer, directory mode (getModelFolderContents) -/

/-- Embeds line 77: `path.resolve(model)` plus the `.pass` suffix added
when the given name is nonempty and has no extension. -/
def mkModelPath (env : Env) (model : String) : String :=
  env.resolve model ++ (if model ≠ "" ∧ extnameStr model = "" then ".pass" else "")

/-- Embeds line 81: drop hidden entries, then drop names matching the
case-insensitive regex `/(manifest|signature)/`. -/
def filterModelFiles (lst : List String) : List String :=
  (removeHidden lst).filter (fun f =>
    !(strIncludes (lowerStr f) "manifest" || strIncludes (lowerStr f) "signature"))

/-- Embeds lines 83-86: the candidate listing is nonempty and some name
contains "icon" case-insensitively. -/
def modelInitializedB (filteredFiles : List String) : Bool :=
  !filteredFiles.isEmpty &&
    filteredFiles.any (fun file => strIncludes (lowerStr file) "icon")

/-- Embeds lines 97-98: partition the filtered entries by the substring
test `entry.includes(".lproj")` — first component `rawBundle`, second
`l10nFolders`. -/
def splitBundleEntries (filteredFiles : List String) : List String × List String :=
  (filteredFiles.filter (fun entry => !(strIncludes entry ".lproj")),
   filteredFiles.filter (fun entry => strIncludes entry ".lproj"))

/-- Embeds line 122: `readFile(file).catch(() => Buffer.alloc(0))` — a
failed read inside a locale folder becomes the empty buffer. -/
def readL10nFile (env : Env) (p : String) : Buffer :=
  match env.readFile p with
  | .ok b => b
  | .error _ => []

/-- Embeds lines 116-133 after the folder listing: keys are the joined
paths `path.join(currentLangPath, file)`, and entries whose (caught) read
produced a zero-length buffer are dropped. -/
def l10nMapOf (env : Env) (currentLangPath : String) (files : List String) :
    BundleUnit :=
  ((removeHidden files).map (fun file => pjoin currentLangPath file)).foldl
    (fun acc p =>
      if (readL10nFile env p).length == 0 then acc
      else acc ++ [(p, readL10nFile env p)])
    []

/-- Embeds the per-locale-folder task of lines 110-135: list the folder
(failures here are not caught), then build the folder mapping. -/
def readL10nFolder (env : Env) (currentLangPath : String) :
    Except JsError BundleUnit :=
  match env.readDir currentLangPath with
  | .error e => .error e
  | .ok files => .ok (l10nMapOf env currentLangPath files)

/-- Embeds lines 83-148 given the already-filtered listing.  Note the
uninitialized branch: line 92 evaluates `path.parse(this.model)` where
`this` is not the enclosing module object, so the attempted
`MODEL_UNINITIALIZED` throw is preempted by a TypeError. -/
def corePartition (env : Env) (σ : List Nat) (modelPath : String)
    (filteredFiles : List String) : Except JsError PartitionedBundle :=
  if !modelInitializedB filteredFiles then
    .error (.typeError "Cannot read properties of undefined while reading model")
  else
    match promiseAllSched
        ((splitBundleEntries filteredFiles).1.map
          (fun file => env.readFile (pjoin modelPath file))) σ with
    | .error e => .error e
    | .ok buffers =>
      match promiseAllSched
          ((splitBundleEntries filteredFiles).2.map
            (fun folderPath => readL10nFolder env (pjoin modelPath folderPath))) σ with
      | .error e => .error e
      | .ok folders =>
        .ok { bundle := List.zip (splitBundleEntries filteredFiles).1 buffers,
              l10nBundle := List.zip (splitBundleEntries filteredFiles).2 folders }

/-- Embeds the body of the `try` block of getModelFolderContents
(lines 77-148). -/
def getModelFolderContentsCore (env : Env) (σ : List Nat) (model : String) :
    Except JsError PartitionedBundle :=
  match env.readDir (mkModelPath env model) with
  | .error e => .error e
  | .ok modelFilesList =>
    corePartition env σ (mkModelPath env model) (filterModelFiles modelFilesList)

/-- Embeds the `catch` block of lines 149-165: an ENOENT error is
translated by its syscall, anything else is rethrown unchanged. -/
def modelCatch (e : JsError) : JsError :=
  match e with
  | .fsError code syscall p =>
    if code == "ENOENT" then
      if syscall == "open" then .domain "MODELF_NOT_FOUND" p
      else if syscall == "scandir" then .domain "MODELF_FILE_NOT_FOUND" (basenameStr p)
      else .fsError code syscall p
    else .fsError code syscall p
  | e => e

/-- Embeds getModelFolderContents (lines 75-166), with an explicit
completion schedule for its `Promise.all` fan-outs. -/
def getModelFolderContentsS (env : Env) (σ : List Nat) (model : String) :
    Except JsError PartitionedBundle :=
  match getModelFolderContentsCore env σ model with
  | .ok b => .ok b
  | .error e => .error (modelCatch e)

/-! ## Source normalizer, buffer mode (getModelBufferContents) -/

/-- Embeds the reduce of lines 175-183.  For each non-hidden key: a key
matching the case-sensitive regex `/(manifest|signature)/` is skipped;
otherwise the callback evaluates `rawBundle[current]`, but `rawBundle` is
the `const` binding being initialized by this very reduce, so the access
is inside its temporal dead zone and throws a ReferenceError (under an
ES5 downlevel target it is a TypeError on `undefined` instead — an abrupt
throw either way).  Consequently the fold can only succeed with an empty
accumulator. -/
def bufferRawBundle (keys : List String) : Except JsError BundleUnit :=
  keys.foldlM
    (fun (acc : BundleUnit) current =>
      if strIncludes current "manifest" || strIncludes current "signature" then
        Except.ok acc
      else
        (Except.error (JsError.referenceError
          "Cannot access rawBundle before initialization") : Except JsError BundleUnit))
    ([] : BundleUnit)

/-- Embeds getModelBufferContents (lines 174-215).  The partition after
the icon check is reachable only with `rawBundle = []` (see
`bufferRawBundle`), which fails the icon check, so the final branch is
dead code; the JS there would in fact store a raw buffer where a
per-folder mapping is expected, and we render the inner mapping as empty
in that unreachable branch. -/
def getModelBufferContents (model : List (String × Buffer)) :
    Except JsError PartitionedBundle :=
  match bufferRawBundle (removeHidden (model.map Prod.fst)) with
  | .error e => .error e
  | .ok rawBundle =>
    if !modelInitializedB (rawBundle.map Prod.fst) then
      .error (.domain "MODEL_UNINITIALIZED" "Buffers")
    else
      .ok { bundle :=
              ((rawBundle.map Prod.fst).filter
                (fun f => !(strIncludes f ".lproj"))).map
                (fun f => (f, ((rawBundle.lookup f).getD []))),
            l10nBundle :=
              ((rawBundle.map Prod.fst).filter
                (fun f => strIncludes f ".lproj")).map
                (fun f => (f, ([] : BundleUnit))) }

/-! ## getModelContents: dispatch plus final validation gate -/

/-- The two shapes `FactoryOptions["model"]` can take. -/
inductive ModelInput where
  | dirPath (s : String)
  | buffers (m : List (String × Buffer))

/-- Embeds `modelContents.bundle[file]` under the guards of line 62 (the
key is always present there, so the default is never observed). -/
def aget (l : BundleUnit) (k : String) : Buffer :=
  (l.lookup k).getD []

/-- Embeds lines 60-64: the final validation gate over the assembled
bundle — `pass.json` must be a key with nonempty content and some key
containing "icon" (case-sensitively here) must have nonempty content;
otherwise the hardcoded error `new Error("missing icon or pass.json")`
is thrown. -/
def bundleGate (mc : PartitionedBundle) : Except JsError PartitionedBundle :=
  if (mc.bundle.map Prod.fst).contains "pass.json"
      && !(aget mc.bundle "pass.json").isEmpty
      && (mc.bundle.map Prod.fst).any
          (fun file => strIncludes file "icon" && !(aget mc.bundle file).isEmpty) then
    .ok mc
  else
    .error (.raw "missing icon or pass.json")

/-- Embeds getModelContents (lines 38-67): validity check on the model
argument, dispatch on its type, then the final gate. -/
def getModelContents (env : Env) (σ : List Nat) (model : Option ModelInput) :
    Except JsError PartitionedBundle :=
  match model with
  | none => .error (.domain "MODEL_NOT_VALID" "")
  | some (.dirPath s) =>
    if s = "" then .error (.domain "MODEL_NOT_VALID" "")
    else
      match getModelFolderContentsS env σ s with
      | .error e => .error e
      | .ok mc => bundleGate mc
  | some (.buffers m) =>
    if m.isEmpty then .error (.domain "MODEL_NOT_VALID" "")
    else
      match getModelBufferContents m with
      | .error e => .error e
      | .ok mc => bundleGate mc

/-! ## Trust material resolution (readCertificatesFromOptions) -/

/-- An abstract parsed certificate or key handle, as returned by the
node-forge primitives. -/
abbrev ParsedPEM := String

/-- The `signerKey` field: literal text, or a key file reference with an
optional passphrase. -/
inductive SignerKeyOpt where
  | text (s : String)
  | keyObj (keyFile : String) (passphrase : Option String)

/-- The certificate specification (`Certificates` in schema.ts), with
`Option` fields standing for possibly-absent object keys. -/
structure Certificates where
  wwdr : Option String
  signerCert : Option String
  signerKey : Option SignerKeyOpt

/-- The node-forge PEM primitives, kept abstract: factory.ts treats them
as black boxes and the spec describes them only as a PEM/key-parsing
primitive.  Each can either throw (`Except.error`, which is what
`forge.pki.certificateFromPem` does on malformed PEM) or return a
possibly-null result (`Option`, which is how
`forge.pki.decryptRsaPrivateKey` reports a wrong passphrase). -/
structure ForgeModel where
  certificateFromPem : String → Except JsError (Option ParsedPEM)
  decryptRsaPrivateKey : String → String → Except JsError (Option ParsedPEM)

/-- The resolved trust material (`FinalCertificates` in schema.ts). -/
structure FinalCertificates where
  wwdr : ParsedPEM
  signerCert : ParsedPEM
  signerKey : ParsedPEM
deriving DecidableEq

/-- JavaScript truthiness of an optional string (absent and empty are
falsy). -/
def truthyOptStr : Option String → Bool
  | none => false
  | some s => s != ""

/-- Embeds parsePEM (lines 289-295): decrypt with the passphrase only for
the signer key when a truthy passphrase exists, else parse as a plain
certificate. -/
def parsePEM (forge : ForgeModel) (pemName element : String)
    (passphrase : Option String) : Except JsError (Option ParsedPEM) :=
  if pemName == "signerKey" && truthyOptStr passphrase then
    forge.decryptRsaPrivateKey element (passphrase.getD "")
  else
    forge.certificateFromPem element

/-- Embeds lines 254-268 for a single field: a thrown parse error
propagates, a null result becomes `INVALID_CERTS` naming the field. -/
def parseStep (forge : ForgeModel) (certName file : String)
    (passphrase : Option String) : Except JsError ParsedPEM :=
  match parsePEM forge certName file passphrase with
  | .error e => .error e
  | .ok none => .error (.domain "INVALID_CERTS" certName)
  | .ok (some pem) => .ok pem

/-- Embeds the per-field content resolution of lines 239-250: a value with
a parseable extension is a path, read from disk as utf8 (with
`path.resolve`); any other value passes through as literal content. -/
def readCertField (env : Env) (content : String) : Except JsError String :=
  if extnameStr content == "" then .ok content
  else env.readFileUtf8 (env.resolve content)

/-- Sequencing of awaited fallible steps (the bind of `Except`, written
as its own definition so proofs can rewrite it step by step). -/
def exceptBind {α β : Type} (x : Except JsError α)
    (f : α → Except JsError β) : Except JsError β :=
  match x with
  | .error e => .error e
  | .ok a => f a

theorem exceptBind_ok {α β : Type} (a : α) (f : α → Except JsError β) :
    exceptBind (.ok a) f = f a := rfl

theorem exceptBind_error {α β : Type} (e : JsError) (f : α → Except JsError β) :
    exceptBind (.error e) f = .error e := rfl

/-- Embeds the body of the `try` block of lines 252-271: resolve the three
contents (all of them before any parsing, as `Promise.all` does; on
multiple simultaneous read failures the surfaced one is taken in field
order), then parse them in field order.  `w`, `c` and `flatKey` are the
contents of `wwdr`, `signerCert` and the flattened `signerKey`. -/
def certsAttempt (env : Env) (forge : ForgeModel) (w c flatKey : String)
    (pass : Option String) : Except JsError FinalCertificates :=
  exceptBind (readCertField env w) fun cw =>
  exceptBind (readCertField env c) fun cc =>
  exceptBind (readCertField env flatKey) fun ck =>
  exceptBind (parseStep forge "wwdr" cw pass) fun pw =>
  exceptBind (parseStep forge "signerCert" cc pass) fun pc =>
  exceptBind (parseStep forge "signerKey" ck pass) fun pk =>
  .ok { wwdr := pw, signerCert := pc, signerKey := pk }

/-- Embeds readCertificatesFromOptions (lines 223-279).  An absent or
schema-invalid spec yields `CP_NO_CERTS` (the schema validator of
schema.ts is not among the sources; modelled from the spec as: all three
fields present).  The signer key is flattened to its content/path with the
passphrase remembered separately; the catch block translates any error
carrying a `path` property into `INVALID_CERT_PATH` naming only the base
name, and rethrows everything else unchanged. -/
def readCertificatesFromOptions (env : Env) (forge : ForgeModel)
    (options : Option Certificates) : Except JsError FinalCertificates :=
  match options with
  | none => .error (.domain "CP_NO_CERTS" "")
  | some opts =>
    match opts.wwdr, opts.signerCert, opts.signerKey with
    | some w, some c, some sk =>
      let flatKey := match sk with | .text s => s | .keyObj f _ => f
      let pass : Option String := match sk with | .text _ => none | .keyObj _ p => p
      match certsAttempt env forge w c flatKey pass with
      | .ok r => .ok r
      | .error e =>
        match e.pathProp with
        | none => .error e
        | some p => .error (.domain "INVALID_CERT_PATH" (basenameStr p))
    | _, _, _ => .error (.domain "CP_NO_CERTS" "")

/-! ## Entry point (createPass) -/

/-- The top-level options object, with `Option` fields standing for
possibly-absent keys; overrides are opaque pass-through data. -/
structure FactoryOptions where
  model : Option ModelInput
  certificates : Option Certificates
  overrides : Option Unit

/-- Embeds `Object.keys(options).length` for the top-level options. -/
def optionsKeysLen (o : FactoryOptions) : Nat :=
  (if o.model.isSome then 1 else 0) +
  (if o.certificates.isSome then 1 else 0) +
  (if o.overrides.isSome then 1 else 0)

/-- What the Pass constructor receives on success (pass.ts is an external
collaborator; only the handed-over structure matters here). -/
structure PassState where
  model : PartitionedBundle
  certificates : FinalCertificates
  overrides : Option Unit

/-- Embeds createPass (lines 16-36): reject an absent or key-less options
object with `CP_NO_OPTS` before running the pipelines; any failure from
either pipeline is caught and resurfaced as the single generic
`CP_INIT_ERROR`. -/
def createPass (env : Env) (forge : ForgeModel) (σ : List Nat)
    (options : Option FactoryOptions) : Except JsError PassState :=
  match options with
  | none => .error (.domain "CP_NO_OPTS" "")
  | some o =>
    if optionsKeysLen o == 0 then .error (.domain "CP_NO_OPTS" "")
    else
      match exceptBind (getModelContents env σ o.model) (fun b =>
          exceptBind (readCertificatesFromOptions env forge o.certificates) (fun cs =>
            .ok (b, cs))) with
      | .error _ => .error (.domain "CP_INIT_ERROR" "")
      | .ok (b, cs) => .ok { model := b, certificates := cs, overrides := o.overrides }

/-! ## Supporting lemmas -/

theorem collectAll_ok_mem {α : Type} {tasks : List (Except JsError α)} {v : List α}
    (h : collectAll tasks = .ok v) : ∀ t ∈ tasks, ∃ a, t = .ok a := by
  induction tasks generalizing v with
  | nil => intro t ht; cases ht
  | cons x xs ih =>
    intro t ht
    cases x with
    | error e => rw [collectAll] at h; cases h
    | ok a =>
      rw [collectAll] at h
      cases hxs : collectAll xs with
      | error e => rw [hxs] at h; cases h
      | ok as =>
        rcases List.mem_cons.mp ht with rfl | hmem
        · exact ⟨a, rfl⟩
        · exact ih hxs t hmem

theorem firstSettledError_some_mem {α : Type} {tasks : List (Except JsError α)}
    {σ : List Nat} {e : JsError} (h : firstSettledError tasks σ = some e) :
    Except.error e ∈ tasks := by
  induction σ with
  | nil => cases h
  | cons i rest ih =>
    rw [firstSettledError] at h
    cases hg : tasks.get? i with
    | none => rw [hg] at h; exact ih h
    | some t =>
      cases t with
      | ok a => rw [hg] at h; exact ih h
      | error e1 =>
        rw [hg] at h
        cases h
        exact List.get?_mem hg

theorem firstSettledError_none_of_ok {α : Type} {tasks : List (Except JsError α)}
    (hall : ∀ t ∈ tasks, ∃ a, t = .ok a) (σ : List Nat) :
    firstSettledError tasks σ = none := by
  induction σ with
  | nil => rfl
  | cons i rest ih =>
    rw [firstSettledError]
    cases hg : tasks.get? i with
    | none => exact ih
    | some t =>
      cases t with
      | ok a => exact ih
      | error e1 =>
        rcases hall _ (List.get?_mem hg) with ⟨a, ha⟩
        cases ha

theorem promiseAllSched_ok_iff {α : Type} (tasks : List (Except JsError α))
    (σ : List Nat) (v : List α) :
    promiseAllSched tasks σ = .ok v ↔ collectAll tasks = .ok v := by
  unfold promiseAllSched
  cases hfs : firstSettledError tasks σ with
  | some e =>
    constructor
    · intro h; cases h
    · intro h
      have hmem := firstSettledError_some_mem hfs
      rcases collectAll_ok_mem h _ hmem with ⟨a, ha⟩
      cases ha
  | none => exact Iff.rfl

theorem promiseAllSched_ok_of_collect {α : Type} {tasks : List (Except JsError α)}
    {v : List α} (σ : List Nat) (h : collectAll tasks = .ok v) :
    promiseAllSched tasks σ = .ok v :=
  (promiseAllSched_ok_iff tasks σ v).mpr h

theorem collectAll_map_ok {α β : Type} {l : List β} {f : β → Except JsError α}
    {g : β → α} (h : ∀ x ∈ l, f x = .ok (g x)) :
    collectAll (l.map f) = .ok (l.map g) := by
  induction l with
  | nil => rfl
  | cons x xs ih =>
    have hx := h x (List.mem_cons_self x xs)
    have hxs := ih (fun y hy => h y (List.mem_cons_of_mem x hy))
    simp only [List.map_cons, hx, collectAll, hxs]

theorem collectAll_error_of_mem {α : Type} {tasks : List (Except JsError α)}
    {e : JsError} (h : Except.error e ∈ tasks) :
    ∃ e2, collectAll tasks = .error e2 := by
  induction tasks with
  | nil => cases h
  | cons x xs ih =>
    rcases List.mem_cons.mp h with rfl | hmem
    · exact ⟨e, rfl⟩
    · cases x with
      | error e3 => exact ⟨e3, rfl⟩
      | ok a =>
        rcases ih hmem with ⟨e2, he2⟩
        refine ⟨e2, ?_⟩
        rw [collectAll, he2]

theorem promiseAllSched_error_of_mem {α : Type} {tasks : List (Except JsError α)}
    {e : JsError} (σ : List Nat) (h : Except.error e ∈ tasks) :
    ∃ e2, promiseAllSched tasks σ = .error e2 := by
  unfold promiseAllSched
  cases hfs : firstSettledError tasks σ with
  | some e3 => exact ⟨e3, rfl⟩
  | none =>
    rcases collectAll_error_of_mem h with ⟨e2, he2⟩
    exact ⟨e2, by rw [he2]⟩

theorem zip_self_map {α β : Type} (l : List α) (g : α → β) :
    List.zip l (l.map g) = l.map (fun x => (x, g x)) := by
  induction l with
  | nil => rfl
  | cons x xs ih => simp [List.zip_cons_cons, ih]

theorem l10nMapOf_foldl_mem (env : Env) (lst : List String)
    (acc : BundleUnit) (x : String × Buffer) :
    x ∈ lst.foldl
        (fun acc p =>
          if (readL10nFile env p).length == 0 then acc
          else acc ++ [(p, readL10nFile env p)]) acc ↔
      (x ∈ acc ∨ ∃ p ∈ lst, x = (p, readL10nFile env p) ∧
        (readL10nFile env p).length ≠ 0) := by
  induction lst generalizing acc with
  | nil => simp
  | cons q qs ih =>
    simp only [List.foldl_cons]
    by_cases hq : (readL10nFile env q).length = 0
    · rw [if_pos (by simpa using hq), ih]
      constructor
      · rintro (hx | ⟨p, hp, hxp, hnz⟩)
        · exact Or.inl hx
        · exact Or.inr ⟨p, List.mem_cons_of_mem q hp, hxp, hnz⟩
      · rintro (hx | ⟨p, hp, hxp, hnz⟩)
        · exact Or.inl hx
        · rcases List.mem_cons.mp hp with rfl | hp2
          · exact absurd hq hnz
          · exact Or.inr ⟨p, hp2, hxp, hnz⟩
    · rw [if_neg (by simpa using hq), ih]
      constructor
      · rintro (hx | ⟨p, hp, hxp, hnz⟩)
        · rcases List.mem_append.mp hx with hx2 | hx2
          · exact Or.inl hx2
          · rcases List.mem_singleton.mp hx2 with rfl
            exact Or.inr ⟨q, List.mem_cons_self q qs, rfl, hq⟩
        · exact Or.inr ⟨p, List.mem_cons_of_mem q hp, hxp, hnz⟩
      · rintro (hx | ⟨p, hp, hxp, hnz⟩)
        · exact Or.inl (List.mem_append.mpr (Or.inl hx))
        · rcases List.mem_cons.mp hp with rfl | hp2
          · exact Or.inl (List.mem_append.mpr (Or.inr (by simp [hxp])))
          · exact Or.inr ⟨p, hp2, hxp, hnz⟩

theorem l10nMapOf_mem (env : Env) (cp : String) (files : List String)
    (p : String) (b : Buffer) :
    (p, b) ∈ l10nMapOf env cp files ↔
      (p ∈ (removeHidden files).map (fun file => pjoin cp file) ∧
        env.readFile p = .ok b ∧ b ≠ []) := by
  unfold l10nMapOf
  rw [l10nMapOf_foldl_mem]
  simp only [List.not_mem_nil, false_or]
  constructor
  · rintro ⟨q, hq, hx, hnz⟩
    have hx2 : p = q ∧ b = readL10nFile env q := by
      have := Prod.mk.injEq p b q (readL10nFile env q) ▸ hx
      exact ⟨this.1, this.2⟩
    rcases hx2 with ⟨rfl, rfl⟩
    refine ⟨hq, ?_, ?_⟩
    · unfold readL10nFile at hnz ⊢
      cases hr : env.readFile p with
      | ok bb => rfl
      | error e => rw [hr] at hnz; simp at hnz
    · intro hnil
      rw [hnil] at hnz
      exact hnz rfl
  · rintro ⟨hmem, hread, hnz⟩
    have hb : readL10nFile env p = b := by unfold readL10nFile; rw [hread]
    exact ⟨p, hmem, by rw [hb], by rw [hb]; simpa using hnz⟩

theorem lookup_isSome_iff (l : BundleUnit) (k : String) :
    k ∈ l.map Prod.fst ↔ ∃ b, l.lookup k = some b := by
  induction l with
  | nil => simp [List.lookup]
  | cons x xs ih =>
    rcases x with ⟨a, b⟩
    simp only [List.map_cons, List.mem_cons, List.lookup]
    by_cases hk : k = a
    · subst hk; simp
    · rw [show (k == a) = false by simpa using hk]
      simp only [hk, false_or]
      exact ih

/-! ## Claim theorems -/

/-- Directory source of the end-to-end example: `./Model.pass` with
`pass.json` (10 bytes), `icon.png` (5 bytes), `fr.lproj/pass.strings`
(3 bytes). -/
def envC1 : Env :=
  { resolve := fun s => s
    readDir := fun p =>
      if p == "./Model.pass" then .ok ["pass.json", "icon.png", "fr.lproj"]
      else if p == "./Model.pass/fr.lproj" then .ok ["pass.strings"]
      else .error (.fsError "ENOENT" "scandir" p)
    readFile := fun p =>
      if p == "./Model.pass/pass.json" then .ok (List.replicate 10 0)
      else if p == "./Model.pass/icon.png" then .ok (List.replicate 5 0)
      else if p == "./Model.pass/fr.lproj/pass.strings" then .ok (List.replicate 3 0)
      else .error (.fsError "ENOENT" "open" p)
    readFileUtf8 := fun p => .error (.fsError "ENOENT" "open" p) }

/-- C1, counterexample: on the exact source of the claim the inner key of
the `fr.lproj` mapping is the full joined path
`./Model.pass/fr.lproj/pass.strings` (line 117 joins `currentLangPath`
with the file name), not the bundle-relative name `pass.strings`. -/
theorem c1_l10n_key_cex :
    getModelFolderContentsS envC1 [] "./Model.pass" = Except.ok
      { bundle := [("pass.json", List.replicate 10 0), ("icon.png", List.replicate 5 0)],
        l10nBundle := [("fr.lproj",
          [("./Model.pass/fr.lproj/pass.strings", List.replicate 3 0)])] }
    ∧ ("./Model.pass/fr.lproj/pass.strings" == "pass.strings") = false := by
  constructor
  · decide
  · decide

theorem getS_ok_of_core {env : Env} {σ : List Nat} {model : String}
    {b : PartitionedBundle} (h : getModelFolderContentsCore env σ model = .ok b) :
    getModelFolderContentsS env σ model = .ok b := by
  unfold getModelFolderContentsS; rw [h]

theorem getS_error_of_core {env : Env} {σ : List Nat} {model : String}
    {e : JsError} (h : getModelFolderContentsCore env σ model = .error e) :
    getModelFolderContentsS env σ model = .error (modelCatch e) := by
  unfold getModelFolderContentsS; rw [h]

theorem core_eq_partition {env : Env} {σ : List Nat} {model : String}
    {lst : List String} (h : env.readDir (mkModelPath env model) = .ok lst) :
    getModelFolderContentsCore env σ model =
      corePartition env σ (mkModelPath env model) (filterModelFiles lst) := by
  unfold getModelFolderContentsCore; rw [h]

theorem corePartition_ok {env : Env} {σ : List Nat} {mp : String}
    {ff : List String} {buffers : List Buffer} {folders : List BundleUnit}
    (hinit : modelInitializedB ff = true)
    (hp1 : promiseAllSched
        ((splitBundleEntries ff).1.map (fun file => env.readFile (pjoin mp file))) σ
      = .ok buffers)
    (hp2 : promiseAllSched
        ((splitBundleEntries ff).2.map (fun folderPath => readL10nFolder env (pjoin mp folderPath))) σ
      = .ok folders) :
    corePartition env σ mp ff = .ok
      { bundle := List.zip (splitBundleEntries ff).1 buffers,
        l10nBundle := List.zip (splitBundleEntries ff).2 folders } := by
  unfold corePartition
  rw [hinit, hp1, hp2]
  rfl

theorem corePartition_err1 {env : Env} {σ : List Nat} {mp : String}
    {ff : List String} {e : JsError}
    (hinit : modelInitializedB ff = true)
    (hp1 : promiseAllSched
        ((splitBundleEntries ff).1.map (fun file => env.readFile (pjoin mp file))) σ
      = .error e) :
    corePartition env σ mp ff = .error e := by
  unfold corePartition
  rw [hinit, hp1]
  rfl

theorem corePartition_err2 {env : Env} {σ : List Nat} {mp : String}
    {ff : List String} {buffers : List Buffer} {e : JsError}
    (hinit : modelInitializedB ff = true)
    (hp1 : promiseAllSched
        ((splitBundleEntries ff).1.map (fun file => env.readFile (pjoin mp file))) σ
      = .ok buffers)
    (hp2 : promiseAllSched
        ((splitBundleEntries ff).2.map (fun folderPath => readL10nFolder env (pjoin mp folderPath))) σ
      = .error e) :
    corePartition env σ mp ff = .error e := by
  unfold corePartition
  rw [hinit, hp1, hp2]
  rfl

/-- C1 (amended): for every directory source listing exactly `pass.json`,
`icon.png` and `fr.lproj` (with one readable nonempty file
`pass.strings`), normalization returns the bundle with exactly the keys
`pass.json` and `icon.png` and an `l10nBundle` with the single key
`fr.lproj` whose inner mapping has the single key given by the FULL
joined path `<modelPath>/fr.lproj/pass.strings` — not the bundle-relative
name `pass.strings` claimed by the spec. -/
theorem c1_amended (env : Env) (σ : List Nat) (model : String) (b1 b2 b3 : Buffer)
    (hd : env.readDir (mkModelPath env model) = .ok ["pass.json", "icon.png", "fr.lproj"])
    (h1 : env.readFile (pjoin (mkModelPath env model) "pass.json") = .ok b1)
    (h2 : env.readFile (pjoin (mkModelPath env model) "icon.png") = .ok b2)
    (h4 : env.readDir (pjoin (mkModelPath env model) "fr.lproj") = .ok ["pass.strings"])
    (h5 : env.readFile (pjoin (pjoin (mkModelPath env model) "fr.lproj") "pass.strings") = .ok b3)
    (h6 : b3 ≠ []) :
    getModelFolderContentsS env σ model = .ok
      { bundle := [("pass.json", b1), ("icon.png", b2)],
        l10nBundle := [("fr.lproj",
          [(pjoin (pjoin (mkModelPath env model) "fr.lproj") "pass.strings", b3)])] } := by
  have hb3 : (List.length b3 == 0) = false := by
    cases b3 with
    | nil => exact absurd rfl h6
    | cons x xs => rfl
  have hfold : readL10nFolder env (pjoin (mkModelPath env model) "fr.lproj") =
      .ok [(pjoin (pjoin (mkModelPath env model) "fr.lproj") "pass.strings", b3)] := by
    unfold readL10nFolder
    rw [h4]
    show Except.ok (l10nMapOf env (pjoin (mkModelPath env model) "fr.lproj") ["pass.strings"]) = _
    unfold l10nMapOf
    rw [show removeHidden ["pass.strings"] = ["pass.strings"] from by decide]
    simp only [List.map_cons, List.map_nil, List.foldl_cons, List.foldl_nil]
    rw [show readL10nFile env (pjoin (pjoin (mkModelPath env model) "fr.lproj") "pass.strings") = b3
        from by unfold readL10nFile; rw [h5]]
    rw [hb3]
    rfl
  have hp1 : promiseAllSched
      ((splitBundleEntries (filterModelFiles ["pass.json", "icon.png", "fr.lproj"])).1.map
        (fun file => env.readFile (pjoin (mkModelPath env model) file))) σ
      = .ok [b1, b2] := by
    rw [show (splitBundleEntries (filterModelFiles ["pass.json", "icon.png", "fr.lproj"])).1
        = ["pass.json", "icon.png"] from by decide]
    apply promiseAllSched_ok_of_collect
    simp only [List.map_cons, List.map_nil, h1, h2]
    rfl
  have hp2 : promiseAllSched
      ((splitBundleEntries (filterModelFiles ["pass.json", "icon.png", "fr.lproj"])).2.map
        (fun folderPath => readL10nFolder env (pjoin (mkModelPath env model) folderPath))) σ
      = .ok [[(pjoin (pjoin (mkModelPath env model) "fr.lproj") "pass.strings", b3)]] := by
    rw [show (splitBundleEntries (filterModelFiles ["pass.json", "icon.png", "fr.lproj"])).2
        = ["fr.lproj"] from by decide]
    apply promiseAllSched_ok_of_collect
    simp only [List.map_cons, List.map_nil, hfold]
    rfl
  apply getS_ok_of_core
  rw [core_eq_partition hd]
  rw [corePartition_ok (by decide) hp1 hp2]
  rfl

/-- Witness for C1 (amended) at the concrete end-to-end source. -/
theorem c1_amended_witness :
    getModelFolderContentsS envC1 [] "./Model.pass" = .ok
      { bundle := [("pass.json", List.replicate 10 0), ("icon.png", List.replicate 5 0)],
        l10nBundle := [("fr.lproj",
          [(pjoin (pjoin (mkModelPath envC1 "./Model.pass") "fr.lproj") "pass.strings",
            List.replicate 3 0)])] } :=
  c1_amended envC1 [] "./Model.pass" (List.replicate 10 0) (List.replicate 5 0)
    (List.replicate 3 0) (by decide) (by decide) (by decide) (by decide) (by decide) (by decide)

theorem aget_pos_iff (l : BundleUnit) (k : String) (hk : k ∈ l.map Prod.fst) :
    (!(aget l k).isEmpty) = true ↔ ∃ b, l.lookup k = some b ∧ b ≠ [] := by
  rcases (lookup_isSome_iff l k).mp hk with ⟨b, hb⟩
  unfold aget
  rw [hb]
  simp [List.isEmpty_iff]

theorem gateCond_iff (mc : PartitionedBundle) :
    ((mc.bundle.map Prod.fst).contains "pass.json"
      && !(aget mc.bundle "pass.json").isEmpty
      && (mc.bundle.map Prod.fst).any
          (fun file => strIncludes file "icon" && !(aget mc.bundle file).isEmpty)) = true
    ↔ ((∃ b, mc.bundle.lookup "pass.json" = some b ∧ b ≠ []) ∧
       (∃ f, f ∈ mc.bundle.map Prod.fst ∧
          (∃ s t, f.data = s ++ ("icon" : String).data ++ t) ∧
          (∃ b, mc.bundle.lookup f = some b ∧ b ≠ []))) := by
  rw [Bool.and_eq_true, Bool.and_eq_true]
  constructor
  · rintro ⟨⟨hcont, hpass⟩, hany⟩
    have hmem : "pass.json" ∈ mc.bundle.map Prod.fst := by simpa using hcont
    refine ⟨(aget_pos_iff _ _ hmem).mp hpass, ?_⟩
    rw [List.any_eq_true] at hany
    rcases hany with ⟨f, hf, hp⟩
    rw [Bool.and_eq_true] at hp
    exact ⟨f, hf, (strIncludes_iff f "icon").mp hp.1, (aget_pos_iff _ _ hf).mp hp.2⟩
  · rintro ⟨⟨b, hb, hbne⟩, f, hf, hicon, b2, hb2, hb2ne⟩
    have hmem : "pass.json" ∈ mc.bundle.map Prod.fst := (lookup_isSome_iff _ _).mpr ⟨b, hb⟩
    refine ⟨⟨by simpa using hmem, (aget_pos_iff _ _ hmem).mpr ⟨b, hb, hbne⟩⟩, ?_⟩
    rw [List.any_eq_true]
    refine ⟨f, hf, ?_⟩
    rw [Bool.and_eq_true]
    exact ⟨(strIncludes_iff f "icon").mpr hicon, (aget_pos_iff _ _ hf).mpr ⟨b2, hb2, hb2ne⟩⟩

/-- C4 (amended): the final validation gate fails exactly on bundles that
lack a nonempty `pass.json` entry or lack a nonempty entry whose name
contains "icon" (case-sensitively, line 62), and it always fails with the
one fixed error `missing icon or pass.json`, which names both
requirements jointly without identifying which was violated. -/
theorem c4_gate_amended (mc : PartitionedBundle) :
    bundleGate mc = .error (.raw "missing icon or pass.json") ↔
      ¬ ((∃ b, mc.bundle.lookup "pass.json" = some b ∧ b ≠ []) ∧
         (∃ f, f ∈ mc.bundle.map Prod.fst ∧
            (∃ s t, f.data = s ++ ("icon" : String).data ++ t) ∧
            (∃ b, mc.bundle.lookup f = some b ∧ b ≠ []))) := by
  unfold bundleGate
  by_cases hc : ((mc.bundle.map Prod.fst).contains "pass.json"
      && !(aget mc.bundle "pass.json").isEmpty
      && (mc.bundle.map Prod.fst).any
          (fun file => strIncludes file "icon" && !(aget mc.bundle file).isEmpty)) = true
  · rw [if_pos hc]
    rw [gateCond_iff] at hc
    constructor
    · intro h; cases h
    · intro h; exact absurd hc h
  · rw [if_neg hc]
    rw [gateCond_iff] at hc
    simpa using hc

/-- Witness for C4 (amended): the gate rejects a bundle with neither
requirement satisfied. -/
theorem c4_gate_amended_witness :
    bundleGate { bundle := [("thumbnail.png", [1])], l10nBundle := [] } =
      .error (.raw "missing icon or pass.json") :=
  (c4_gate_amended { bundle := [("thumbnail.png", [1])], l10nBundle := [] }).mpr
    (by
      rintro ⟨⟨b, hb, -⟩, -⟩
      rw [show List.lookup "pass.json" ([("thumbnail.png", [1])] : BundleUnit) = none
          from by decide] at hb
      cases hb)

/-- C4, counterexample: a bundle missing `pass.json` (but holding a
nonempty icon) and a bundle holding a nonempty `pass.json` (but no icon)
produce the very same error value, so the failure does not identify which
requirement was violated. -/
theorem c4_which_requirement_cex :
    bundleGate { bundle := [("icon.png", [1])], l10nBundle := [] } =
      bundleGate { bundle := [("pass.json", [1])], l10nBundle := [] }
    ∧ bundleGate { bundle := [("icon.png", [1])], l10nBundle := [] } =
        .error (.raw "missing icon or pass.json") := by
  exact ⟨by decide, by decide⟩

/-- C2: the buffer-mode normalizer can never succeed.  On any map holding
a non-hidden key that does not match the case-sensitive
`/(manifest|signature)/` regex — in particular the claim's map with
`pass.json` and `icon.png` — the reduce of lines 175-183 dereferences the
`rawBundle` binding inside its own initializer and throws, instead of
partitioning the map; a map with `pass.json` only hits the same throw
instead of the claimed `MODEL_UNINITIALIZED`/"Buffers" error, which is
reachable only when every key is hidden or manifest/signature-like. -/
theorem c2_buffer_mode_eval :
    getModelBufferContents [("pass.json", [1, 2, 3]), ("icon.png", [1])] =
      .error (.referenceError "Cannot access rawBundle before initialization")
    ∧ getModelBufferContents [("pass.json", [1, 2, 3])] =
      .error (.referenceError "Cannot access rawBundle before initialization")
    ∧ getModelBufferContents [("manifest.json", [1])] =
      .error (.domain "MODEL_UNINITIALIZED" "Buffers") := by
  exact ⟨by decide, by decide, by decide⟩

/-- Directory sources for C3: an empty directory and a directory with no
icon-named entry. -/
def envC3 : Env :=
  { resolve := fun s => s
    readDir := fun p =>
      if p == "./Empty.pass" then .ok []
      else if p == "./NoIcon.pass" then .ok ["pass.json"]
      else .error (.fsError "ENOENT" "scandir" p)
    readFile := fun p => .error (.fsError "ENOENT" "open" p)
    readFileUtf8 := fun p => .error (.fsError "ENOENT" "open" p) }

/-- C3: on an empty directory, and on a directory whose listing has no
icon-containing name, directory-mode normalization does NOT fail with the
`MODEL_UNINITIALIZED` kind: line 92 evaluates `path.parse(this.model)`
where `this` is not the module receiver, so message formatting throws a
TypeError, which the catch block rethrows unchanged (its `code` is not
ENOENT). -/
theorem c3_uninitialized_eval :
    getModelFolderContentsS envC3 [] "./Empty.pass" =
      .error (.typeError "Cannot read properties of undefined while reading model")
    ∧ getModelFolderContentsS envC3 [] "./NoIcon.pass" =
      .error (.typeError "Cannot read properties of undefined while reading model") := by
  exact ⟨by decide, by decide⟩

/-- C5: for every directory source (whose listing succeeds and passes the
icon check), a read failure on any base-bundle (non-locale) file aborts
the whole normalization with an error, whatever the completion schedule;
whereas when all base reads and locale-folder listings succeed,
normalization succeeds and each locale folder's output mapping contains
exactly the entries whose read succeeded with nonempty content — a failed
or zero-length locale-file read never aborts, the entry is simply absent. -/
theorem c5_read_failure_policy (env : Env) (σ : List Nat) (model : String)
    (lst : List String)
    (hd : env.readDir (mkModelPath env model) = .ok lst)
    (hinit : modelInitializedB (filterModelFiles lst) = true) :
    (∀ f e, f ∈ (splitBundleEntries (filterModelFiles lst)).1 →
        env.readFile (pjoin (mkModelPath env model) f) = .error e →
        ∃ e2, getModelFolderContentsS env σ model = .error e2)
    ∧
    (∀ (vals : String → Buffer) (lsF : String → List String),
        (∀ f ∈ (splitBundleEntries (filterModelFiles lst)).1,
          env.readFile (pjoin (mkModelPath env model) f) = .ok (vals f)) →
        (∀ d ∈ (splitBundleEntries (filterModelFiles lst)).2,
          env.readDir (pjoin (mkModelPath env model) d) = .ok (lsF d)) →
        (getModelFolderContentsS env σ model = .ok
            { bundle := (splitBundleEntries (filterModelFiles lst)).1.map
                (fun f => (f, vals f)),
              l10nBundle := (splitBundleEntries (filterModelFiles lst)).2.map
                (fun d => (d, l10nMapOf env (pjoin (mkModelPath env model) d) (lsF d))) }
          ∧ ∀ d ∈ (splitBundleEntries (filterModelFiles lst)).2, ∀ p b,
              ((p, b) ∈ l10nMapOf env (pjoin (mkModelPath env model) d) (lsF d) ↔
                (p ∈ (removeHidden (lsF d)).map
                    (fun file => pjoin (pjoin (mkModelPath env model) d) file)
                  ∧ env.readFile p = .ok b ∧ b ≠ [])))) := by
  constructor
  · intro f e hf hread
    have hmem : Except.error e ∈
        (splitBundleEntries (filterModelFiles lst)).1.map
          (fun file => env.readFile (pjoin (mkModelPath env model) file)) := by
      rw [← hread]
      exact List.mem_map_of_mem _ hf
    rcases promiseAllSched_error_of_mem σ hmem with ⟨e2, he2⟩
    refine ⟨modelCatch e2, ?_⟩
    apply getS_error_of_core
    rw [core_eq_partition hd]
    exact corePartition_err1 hinit he2
  · intro vals lsF hv hld
    have hp1 : promiseAllSched
        ((splitBundleEntries (filterModelFiles lst)).1.map
          (fun file => env.readFile (pjoin (mkModelPath env model) file))) σ
        = .ok ((splitBundleEntries (filterModelFiles lst)).1.map vals) :=
      promiseAllSched_ok_of_collect σ (collectAll_map_ok hv)
    have hfolders : ∀ d ∈ (splitBundleEntries (filterModelFiles lst)).2,
        readL10nFolder env (pjoin (mkModelPath env model) d)
          = .ok (l10nMapOf env (pjoin (mkModelPath env model) d) (lsF d)) := by
      intro d hdm
      unfold readL10nFolder
      rw [hld d hdm]
    have hp2 : promiseAllSched
        ((splitBundleEntries (filterModelFiles lst)).2.map
          (fun folderPath => readL10nFolder env (pjoin (mkModelPath env model) folderPath))) σ
        = .ok ((splitBundleEntries (filterModelFiles lst)).2.map
            (fun d => l10nMapOf env (pjoin (mkModelPath env model) d) (lsF d))) :=
      promiseAllSched_ok_of_collect σ (collectAll_map_ok hfolders)
    constructor
    · apply getS_ok_of_core
      rw [core_eq_partition hd, corePartition_ok hinit hp1 hp2]
      rw [zip_self_map, zip_self_map]
    · intro d hdm p b
      exact l10nMapOf_mem env _ (lsF d) p b

/-- Directory sources for the C5 witness: one with a failing base-bundle
read, one fully readable with a locale folder. -/
def envC5 : Env :=
  { resolve := fun s => s
    readDir := fun p =>
      if p == "./Broken.pass" then .ok ["pass.json", "icon.png"]
      else if p == "./Ok.pass" then .ok ["pass.json", "icon.png", "de.lproj"]
      else if p == "./Ok.pass/de.lproj" then .ok ["app.strings"]
      else .error (.fsError "ENOENT" "scandir" p)
    readFile := fun p =>
      if p == "./Ok.pass/pass.json" then .ok [7]
      else if p == "./Ok.pass/icon.png" then .ok [8]
      else if p == "./Ok.pass/de.lproj/app.strings" then .ok [9]
      else .error (.fsError "ENOENT" "open" p)
    readFileUtf8 := fun p => .error (.fsError "ENOENT" "open" p) }

/-- Witness for C5: a base-read failure aborts (left), and a source whose
locale file reads back 1 nonempty byte normalizes with exactly that entry
(right). -/
theorem c5_read_failure_policy_witness :
    (∃ e2, getModelFolderContentsS envC5 [] "./Broken.pass" = .error e2)
    ∧ getModelFolderContentsS envC5 [] "./Ok.pass" = .ok
        { bundle := [("pass.json", [7]), ("icon.png", [8])],
          l10nBundle := [("de.lproj", [("./Ok.pass/de.lproj/app.strings", [9])])] } := by
  constructor
  · exact (c5_read_failure_policy envC5 [] "./Broken.pass" ["pass.json", "icon.png"]
      (by decide) (by decide)).1 "pass.json"
      (.fsError "ENOENT" "open" "./Broken.pass/pass.json") (by decide) (by decide)
  · have h := ((c5_read_failure_policy envC5 [] "./Ok.pass" ["pass.json", "icon.png", "de.lproj"]
      (by decide) (by decide)).2 (fun f => if f == "pass.json" then [7] else [8])
      (fun _ => ["app.strings"]) (by decide) (by decide)).1
    exact h.trans (by decide)

theorem corePartition_ok_sched_indep {env : Env} {σ1 σ2 : List Nat} {mp : String}
    {ff : List String} {b : PartitionedBundle}
    (h : corePartition env σ1 mp ff = .ok b) :
    corePartition env σ2 mp ff = .ok b := by
  by_cases hinit : modelInitializedB ff = true
  · cases hp1 : promiseAllSched
        ((splitBundleEntries ff).1.map (fun file => env.readFile (pjoin mp file))) σ1 with
    | error e =>
      exfalso
      unfold corePartition at h
      rw [hinit, hp1] at h
      cases h
    | ok buffers =>
      cases hp2 : promiseAllSched
          ((splitBundleEntries ff).2.map
            (fun folderPath => readL10nFolder env (pjoin mp folderPath))) σ1 with
      | error e =>
        exfalso
        unfold corePartition at h
        rw [hinit, hp1, hp2] at h
        cases h
      | ok folders =>
        unfold corePartition at h
        rw [hinit, hp1, hp2] at h
        have hq1 := promiseAllSched_ok_of_collect σ2
          ((promiseAllSched_ok_iff _ σ1 _).mp hp1)
        have hq2 := promiseAllSched_ok_of_collect σ2
          ((promiseAllSched_ok_iff _ σ1 _).mp hp2)
        rw [corePartition_ok hinit hq1 hq2]
        exact h
  · exfalso
    unfold corePartition at h
    rw [show (!modelInitializedB ff) = true from by
      revert hinit; cases modelInitializedB ff <;> simp] at h
    cases h

/-- C9: the success value of directory-mode normalization is independent
of the completion schedules of the concurrent read fan-outs — results are
recombined by original index construction-wise — so normalizing the same
immutable source twice (under any two schedules) yields structurally
identical PartitionedBundle values. -/
theorem c9_sched_indep (env : Env) (model : String) (σ1 σ2 : List Nat)
    (b : PartitionedBundle)
    (h : getModelFolderContentsS env σ1 model = .ok b) :
    getModelFolderContentsS env σ2 model = .ok b := by
  have hcore1 : getModelFolderContentsCore env σ1 model = .ok b := by
    unfold getModelFolderContentsS at h
    cases hc : getModelFolderContentsCore env σ1 model with
    | ok b2 =>
      rw [hc] at h
      cases h
      rfl
    | error e =>
      rw [hc] at h
      cases h
  cases hr : env.readDir (mkModelPath env model) with
  | error e =>
    exfalso
    unfold getModelFolderContentsCore at hcore1
    rw [hr] at hcore1
    cases hcore1
  | ok lst =>
    rw [core_eq_partition hr] at hcore1
    apply getS_ok_of_core
    rw [core_eq_partition hr]
    exact corePartition_ok_sched_indep hcore1

/-- Directory source for the C9 witness. -/
def envC9 : Env :=
  { resolve := fun s => s
    readDir := fun p =>
      if p == "./Det.pass" then .ok ["pass.json", "icon.png", "es.lproj"]
      else if p == "./Det.pass/es.lproj" then .ok ["pass.strings"]
      else .error (.fsError "ENOENT" "scandir" p)
    readFile := fun p =>
      if p == "./Det.pass/pass.json" then .ok [1, 2]
      else if p == "./Det.pass/icon.png" then .ok [3]
      else if p == "./Det.pass/es.lproj/pass.strings" then .ok [4]
      else .error (.fsError "ENOENT" "open" p)
    readFileUtf8 := fun p => .error (.fsError "ENOENT" "open" p) }

/-- Witness for C9: a run under the reversed schedule [2, 1, 0] produces
this value, hence so does the run under the empty (index-order) schedule. -/
theorem c9_sched_indep_witness :
    getModelFolderContentsS envC9 [] "./Det.pass" = .ok
      { bundle := [("pass.json", [1, 2]), ("icon.png", [3])],
        l10nBundle := [("es.lproj", [("./Det.pass/es.lproj/pass.strings", [4])])] } :=
  c9_sched_indep envC9 "./Det.pass" [2, 1, 0] []
    { bundle := [("pass.json", [1, 2]), ("icon.png", [3])],
      l10nBundle := [("es.lproj", [("./Det.pass/es.lproj/pass.strings", [4])])] }
    (by decide)

/-- Directory source for C10 holding a regular file `a.lproj.png` whose
name merely contains `.lproj`. -/
def envC10 : Env :=
  { resolve := fun s => s
    readDir := fun p =>
      if p == "./Sub.pass" then .ok ["pass.json", "icon.png", "a.lproj.png"]
      else .error (.fsError "ENOTDIR" "scandir" p)
    readFile := fun p =>
      if p == "./Sub.pass/pass.json" then .ok [1]
      else if p == "./Sub.pass/icon.png" then .ok [1]
      else .error (.fsError "ENOENT" "open" p)
    readFileUtf8 := fun p => .error (.fsError "ENOENT" "open" p) }

/-- C10: an entry is classified as a locale folder exactly when its name
contains the substring `.lproj` anywhere (not only as a trailing
path-segment suffix), and is excluded from the base bundle exactly then;
consequently the regular file `a.lproj.png` is treated as a locale
directory — normalization attempts a directory listing on it and surfaces
that listing's ENOTDIR failure. -/
theorem c10_lproj_substring :
    (∀ (l : List String) (e : String),
        (e ∈ (splitBundleEntries l).2 ↔
          e ∈ l ∧ ∃ s t, e.data = s ++ (".lproj" : String).data ++ t))
    ∧ (∀ (l : List String) (e : String),
        (e ∈ (splitBundleEntries l).1 ↔
          e ∈ l ∧ ¬ ∃ s t, e.data = s ++ (".lproj" : String).data ++ t))
    ∧ getModelFolderContentsS envC10 [] "./Sub.pass" =
        .error (.fsError "ENOTDIR" "scandir" "./Sub.pass/a.lproj.png") := by
  refine ⟨?_, ?_, by decide⟩
  · intro l e
    rw [show (splitBundleEntries l).2
        = l.filter (fun entry => strIncludes entry ".lproj") from rfl]
    rw [List.mem_filter]
    exact and_congr_right (fun _ => strIncludes_iff e ".lproj")
  · intro l e
    rw [show (splitBundleEntries l).1
        = l.filter (fun entry => !(strIncludes entry ".lproj")) from rfl]
    rw [List.mem_filter]
    constructor
    · rintro ⟨hl, hp⟩
      refine ⟨hl, fun hex => ?_⟩
      rw [(strIncludes_iff e ".lproj").mpr hex] at hp
      cases hp
    · rintro ⟨hl, hnex⟩
      refine ⟨hl, ?_⟩
      cases hs : strIncludes e ".lproj" with
      | false => rfl
      | true => exact absurd ((strIncludes_iff e ".lproj").mp hs) hnex

/-- C6 (amended): PEM parse failures that the parsing primitive reports
by returning null yield `INVALID_CERTS` naming the failing field — in
particular decrypting an encrypted signer key with an incorrect
passphrase (a null result from the decryption primitive) fails naming
`signerKey`, while the correct passphrase resolves successfully, and a
null certificate parse for `wwdr` fails naming `wwdr`.  (Parse failures
reported by THROWING — as node-forge certificateFromPem does on malformed
PEM — propagate as the raw thrown error; see the counterexample.) -/
theorem c6_amended (env : Env) (forge : ForgeModel) (w c kf pw : String)
    (r : Option ParsedPEM)
    (hwx : extnameStr w = "") (hcx : extnameStr c = "") (hkx : extnameStr kf = "")
    (hpw : pw ≠ "")
    (hk : forge.decryptRsaPrivateKey kf pw = .ok r) :
    (∀ cw cc k : ParsedPEM,
      forge.certificateFromPem w = .ok (some cw) →
      forge.certificateFromPem c = .ok (some cc) →
      r = some k →
      readCertificatesFromOptions env forge
          (some { wwdr := some w, signerCert := some c,
                  signerKey := some (.keyObj kf (some pw)) }) =
        .ok { wwdr := cw, signerCert := cc, signerKey := k })
    ∧ (∀ cw cc : ParsedPEM,
      forge.certificateFromPem w = .ok (some cw) →
      forge.certificateFromPem c = .ok (some cc) →
      r = none →
      readCertificatesFromOptions env forge
          (some { wwdr := some w, signerCert := some c,
                  signerKey := some (.keyObj kf (some pw)) }) =
        .error (.domain "INVALID_CERTS" "signerKey"))
    ∧ (forge.certificateFromPem w = .ok none →
      readCertificatesFromOptions env forge
          (some { wwdr := some w, signerCert := some c,
                  signerKey := some (.keyObj kf (some pw)) }) =
        .error (.domain "INVALID_CERTS" "wwdr")) := by
  have hrw : readCertField env w = .ok w := by
    unfold readCertField; rw [hwx]; rfl
  have hrc : readCertField env c = .ok c := by
    unfold readCertField; rw [hcx]; rfl
  have hrk : readCertField env kf = .ok kf := by
    unfold readCertField; rw [hkx]; rfl
  have htr : (("signerKey" : String) == "signerKey" && truthyOptStr (some pw)) = true := by
    rw [show truthyOptStr (some pw) = true from bne_iff_ne.mpr hpw]
    rfl
  refine ⟨?_, ?_, ?_⟩
  · intro cw cc k hw hc hr
    subst hr
    have p1 : parseStep forge "wwdr" w (some pw) = .ok cw := by
      unfold parseStep parsePEM
      rw [show (("wwdr" : String) == "signerKey" && truthyOptStr (some pw)) = false from rfl]
      rw [hw]
      rfl
    have p2 : parseStep forge "signerCert" c (some pw) = .ok cc := by
      unfold parseStep parsePEM
      rw [show (("signerCert" : String) == "signerKey" && truthyOptStr (some pw)) = false from rfl]
      rw [hc]
      rfl
    have p3 : parseStep forge "signerKey" kf (some pw) = .ok k := by
      unfold parseStep parsePEM
      rw [htr]
      rw [show (if true = true then forge.decryptRsaPrivateKey kf ((some pw).getD "")
          else forge.certificateFromPem kf) = forge.decryptRsaPrivateKey kf pw from rfl]
      rw [hk]
    unfold readCertificatesFromOptions
    simp only [certsAttempt, hrw, hrc, hrk, p1, p2, p3, exceptBind_ok]
  · intro cw cc hw hc hr
    subst hr
    have p1 : parseStep forge "wwdr" w (some pw) = .ok cw := by
      unfold parseStep parsePEM
      rw [show (("wwdr" : String) == "signerKey" && truthyOptStr (some pw)) = false from rfl]
      rw [hw]
      rfl
    have p2 : parseStep forge "signerCert" c (some pw) = .ok cc := by
      unfold parseStep parsePEM
      rw [show (("signerCert" : String) == "signerKey" && truthyOptStr (some pw)) = false from rfl]
      rw [hc]
      rfl
    have p3 : parseStep forge "signerKey" kf (some pw) =
        .error (.domain "INVALID_CERTS" "signerKey") := by
      unfold parseStep parsePEM
      rw [htr]
      rw [show (if true = true then forge.decryptRsaPrivateKey kf ((some pw).getD "")
          else forge.certificateFromPem kf) = forge.decryptRsaPrivateKey kf pw from rfl]
      rw [hk]
    unfold readCertificatesFromOptions
    simp only [certsAttempt, hrw, hrc, hrk, p1, p2, p3, exceptBind_ok, exceptBind_error]
    rfl
  · intro hw
    have p1 : parseStep forge "wwdr" w (some pw) =
        .error (.domain "INVALID_CERTS" "wwdr") := by
      unfold parseStep parsePEM
      rw [show (("wwdr" : String) == "signerKey" && truthyOptStr (some pw)) = false from rfl]
      rw [hw]
      rfl
    unfold readCertificatesFromOptions
    simp only [certsAttempt, hrw, hrc, hrk, p1, exceptBind_ok, exceptBind_error]
    rfl

/-- Environment for the C6 instances (all certificate contents are
literal, no filesystem access happens). -/
def envC6 : Env :=
  { resolve := fun s => s
    readDir := fun p => .error (.fsError "ENOENT" "scandir" p)
    readFile := fun p => .error (.fsError "ENOENT" "open" p)
    readFileUtf8 := fun p => .error (.fsError "ENOENT" "open" p) }

/-- The throwing behavior of the PEM primitive: node-forge
`certificateFromPem` throws on malformed PEM rather than returning null. -/
def forgeThrowing : ForgeModel :=
  { certificateFromPem := fun _ => .error (.forgeError "Invalid PEM formatted message")
    decryptRsaPrivateKey := fun _ _ => .ok none }

/-- C6, counterexample: with the primitive throwing on a malformed PEM
(the documented node-forge behavior), the thrown error — carrying no
`path` — is rethrown raw by lines 272-275; the result is a generic parse
error, not `INVALID_CERTS` naming `wwdr`. -/
theorem c6_raw_parse_error_cex :
    readCertificatesFromOptions envC6 forgeThrowing
      (some { wwdr := some "WWDRPEMTEXT", signerCert := some "CERTPEMTEXT",
              signerKey := some (.text "KEYPEMTEXT") }) =
      .error (.forgeError "Invalid PEM formatted message") := by decide

/-- A null-reporting primitive: parse always succeeds, decryption
succeeds only under the passphrase "secret". -/
def forgeNull : ForgeModel :=
  { certificateFromPem := fun s => .ok (some ("P" ++ s))
    decryptRsaPrivateKey := fun k p => if p == "secret" then .ok (some ("K" ++ k)) else .ok none }

/-- A primitive whose certificate parse reports failure by null. -/
def forgeNullCert : ForgeModel :=
  { certificateFromPem := fun _ => .ok none
    decryptRsaPrivateKey := fun _ _ => .ok none }

/-- Witness for C6 (amended): correct passphrase succeeds; wrong
passphrase yields `INVALID_CERTS`/`signerKey`; null certificate parse
yields `INVALID_CERTS`/`wwdr`. -/
theorem c6_amended_witness :
    readCertificatesFromOptions envC6 forgeNull
      (some { wwdr := some "WPEM", signerCert := some "CPEM",
              signerKey := some (.keyObj "KPEM" (some "secret")) }) =
      .ok { wwdr := "PWPEM", signerCert := "PCPEM", signerKey := "KKPEM" }
    ∧ readCertificatesFromOptions envC6 forgeNull
      (some { wwdr := some "WPEM", signerCert := some "CPEM",
              signerKey := some (.keyObj "KPEM" (some "wrong")) }) =
      .error (.domain "INVALID_CERTS" "signerKey")
    ∧ readCertificatesFromOptions envC6 forgeNullCert
      (some { wwdr := some "WPEM", signerCert := some "CPEM",
              signerKey := some (.keyObj "KPEM" (some "secret")) }) =
      .error (.domain "INVALID_CERTS" "wwdr") := by
  refine ⟨?_, ?_, ?_⟩
  · exact (c6_amended envC6 forgeNull "WPEM" "CPEM" "KPEM" "secret" (some "KKPEM")
      (by decide) (by decide) (by decide) (by decide) (by decide)).1
      "PWPEM" "PCPEM" "KKPEM" (by decide) (by decide) rfl
  · exact (c6_amended envC6 forgeNull "WPEM" "CPEM" "KPEM" "wrong" none
      (by decide) (by decide) (by decide) (by decide) (by decide)).2.1
      "PWPEM" "PCPEM" (by decide) (by decide) rfl
  · exact (c6_amended envC6 forgeNullCert "WPEM" "CPEM" "KPEM" "secret" none
      (by decide) (by decide) (by decide) (by decide) (by decide)).2.2 (by decide)

/-- C7: whichever of the three certificate fields is a path (has an
extension) whose read fails with an error carrying the attempted path —
as Node.js filesystem errors do — resolution fails with
`INVALID_CERT_PATH` whose message argument is exactly the base name of
that path, which contains no slash (so never the full path), and the raw
I/O error is not surfaced.  The four cases cover a failing `wwdr`
(remaining fields arbitrary), a failing `signerCert` (earlier field
resolvable, signer key arbitrary), and a failing `signerKey` in both of
its shapes, literal path text and `{ keyFile, passphrase }`; fields
preceding the failing one only need their content resolution to succeed
(literal text or a readable path). -/
theorem c7_cert_path_error (env : Env) (forge : ForgeModel) :
    (∀ (w c : String) (sk : SignerKeyOpt) (e : JsError),
      extnameStr w ≠ "" →
      env.readFileUtf8 (env.resolve w) = .error e →
      e.pathProp = some (env.resolve w) →
      readCertificatesFromOptions env forge
          (some { wwdr := some w, signerCert := some c, signerKey := some sk }) =
        .error (.domain "INVALID_CERT_PATH" (basenameStr (env.resolve w)))
      ∧ strIncludes (basenameStr (env.resolve w)) "/" = false)
    ∧ (∀ (w cw c : String) (sk : SignerKeyOpt) (e : JsError),
      readCertField env w = .ok cw →
      extnameStr c ≠ "" →
      env.readFileUtf8 (env.resolve c) = .error e →
      e.pathProp = some (env.resolve c) →
      readCertificatesFromOptions env forge
          (some { wwdr := some w, signerCert := some c, signerKey := some sk }) =
        .error (.domain "INVALID_CERT_PATH" (basenameStr (env.resolve c)))
      ∧ strIncludes (basenameStr (env.resolve c)) "/" = false)
    ∧ (∀ (w cw c cc k : String) (e : JsError),
      readCertField env w = .ok cw →
      readCertField env c = .ok cc →
      extnameStr k ≠ "" →
      env.readFileUtf8 (env.resolve k) = .error e →
      e.pathProp = some (env.resolve k) →
      readCertificatesFromOptions env forge
          (some { wwdr := some w, signerCert := some c, signerKey := some (.text k) }) =
        .error (.domain "INVALID_CERT_PATH" (basenameStr (env.resolve k)))
      ∧ strIncludes (basenameStr (env.resolve k)) "/" = false)
    ∧ (∀ (w cw c cc k : String) (pp : Option String) (e : JsError),
      readCertField env w = .ok cw →
      readCertField env c = .ok cc →
      extnameStr k ≠ "" →
      env.readFileUtf8 (env.resolve k) = .error e →
      e.pathProp = some (env.resolve k) →
      readCertificatesFromOptions env forge
          (some { wwdr := some w, signerCert := some c,
                  signerKey := some (.keyObj k pp) }) =
        .error (.domain "INVALID_CERT_PATH" (basenameStr (env.resolve k)))
      ∧ strIncludes (basenameStr (env.resolve k)) "/" = false) := by
  refine ⟨?_, ?_, ?_, ?_⟩
  · intro w c sk e hwx hread hpath
    have hrw : readCertField env w = .error e := by
      unfold readCertField
      rw [show (extnameStr w == "") = false from beq_eq_false_iff_ne.mpr hwx]
      rw [hread]
      rfl
    refine ⟨?_, basenameStr_no_slash _⟩
    unfold readCertificatesFromOptions
    simp only [certsAttempt, hrw, exceptBind_error]
    rw [hpath]
  · intro w cw c sk e hw hcx hread hpath
    have hrc : readCertField env c = .error e := by
      unfold readCertField
      rw [show (extnameStr c == "") = false from beq_eq_false_iff_ne.mpr hcx]
      rw [hread]
      rfl
    refine ⟨?_, basenameStr_no_slash _⟩
    unfold readCertificatesFromOptions
    simp only [certsAttempt, hw, hrc, exceptBind_ok, exceptBind_error]
    rw [hpath]
  · intro w cw c cc k e hw hc hkx hread hpath
    have hrk : readCertField env k = .error e := by
      unfold readCertField
      rw [show (extnameStr k == "") = false from beq_eq_false_iff_ne.mpr hkx]
      rw [hread]
      rfl
    refine ⟨?_, basenameStr_no_slash _⟩
    unfold readCertificatesFromOptions
    simp only [certsAttempt, hw, hc, hrk, exceptBind_ok, exceptBind_error]
    rw [hpath]
  · intro w cw c cc k pp e hw hc hkx hread hpath
    have hrk : readCertField env k = .error e := by
      unfold readCertField
      rw [show (extnameStr k == "") = false from beq_eq_false_iff_ne.mpr hkx]
      rw [hread]
      rfl
    refine ⟨?_, basenameStr_no_slash _⟩
    unfold readCertificatesFromOptions
    simp only [certsAttempt, hw, hc, hrk, exceptBind_ok, exceptBind_error]
    rw [hpath]

/-- Environment for the C7 witness: resolution prepends an absolute
directory and every read fails with ENOENT carrying the path. -/
def envC7 : Env :=
  { resolve := fun s => "/abs/" ++ s
    readDir := fun p => .error (.fsError "ENOENT" "scandir" p)
    readFile := fun p => .error (.fsError "ENOENT" "open" p)
    readFileUtf8 := fun p => .error (.fsError "ENOENT" "open" p) }

/-- A trivially succeeding PEM primitive for the C7 witness. -/
def forgeC7 : ForgeModel :=
  { certificateFromPem := fun s => .ok (some s)
    decryptRsaPrivateKey := fun k _ => .ok (some k) }

/-- Witness for C7 at concrete nonexistent paths in each of the three
fields, the signer key in both its shapes. -/
theorem c7_cert_path_error_witness :
    readCertificatesFromOptions envC7 forgeC7
        (some { wwdr := some "certs/wwdr.pem", signerCert := some "CPEM",
                signerKey := some (.text "KPEM") }) =
      .error (.domain "INVALID_CERT_PATH" "wwdr.pem")
    ∧ readCertificatesFromOptions envC7 forgeC7
        (some { wwdr := some "WPEM", signerCert := some "certs/signerCert.pem",
                signerKey := some (.keyObj "KPEM" (some "pw")) }) =
      .error (.domain "INVALID_CERT_PATH" "signerCert.pem")
    ∧ readCertificatesFromOptions envC7 forgeC7
        (some { wwdr := some "WPEM", signerCert := some "CPEM",
                signerKey := some (.text "keys/signer.key") }) =
      .error (.domain "INVALID_CERT_PATH" "signer.key")
    ∧ readCertificatesFromOptions envC7 forgeC7
        (some { wwdr := some "WPEM", signerCert := some "CPEM",
                signerKey := some (.keyObj "keys/signer.key" (some "pw")) }) =
      .error (.domain "INVALID_CERT_PATH" "signer.key") := by
  refine ⟨?_, ?_, ?_, ?_⟩
  · exact ((c7_cert_path_error envC7 forgeC7).1 "certs/wwdr.pem" "CPEM" (.text "KPEM")
      (.fsError "ENOENT" "open" "/abs/certs/wwdr.pem")
      (by decide) (by decide) (by decide)).1.trans (by decide)
  · exact ((c7_cert_path_error envC7 forgeC7).2.1 "WPEM" "WPEM" "certs/signerCert.pem"
      (.keyObj "KPEM" (some "pw")) (.fsError "ENOENT" "open" "/abs/certs/signerCert.pem")
      (by decide) (by decide) (by decide) (by decide)).1.trans (by decide)
  · exact ((c7_cert_path_error envC7 forgeC7).2.2.1 "WPEM" "WPEM" "CPEM" "CPEM"
      "keys/signer.key" (.fsError "ENOENT" "open" "/abs/keys/signer.key")
      (by decide) (by decide) (by decide) (by decide) (by decide)).1.trans (by decide)
  · exact ((c7_cert_path_error envC7 forgeC7).2.2.2 "WPEM" "WPEM" "CPEM" "CPEM"
      "keys/signer.key" (some "pw") (.fsError "ENOENT" "open" "/abs/keys/signer.key")
      (by decide) (by decide) (by decide) (by decide) (by decide)).1.trans (by decide)

/-- C8: an absent options object, and an options object with no keys,
are rejected with `CP_NO_OPTS` (and neither pipeline's error can surface
there); once options are nonempty, any failure of the bundle normalizer
or of the certificate resolver surfaces as the single generic
`CP_INIT_ERROR`. -/
theorem c8_entry_point (env : Env) (forge : ForgeModel) (σ : List Nat) :
    (createPass env forge σ none = .error (.domain "CP_NO_OPTS" ""))
    ∧ (createPass env forge σ
        (some { model := none, certificates := none, overrides := none }) =
        .error (.domain "CP_NO_OPTS" ""))
    ∧ (∀ (o : FactoryOptions) (e : JsError), optionsKeysLen o ≠ 0 →
        getModelContents env σ o.model = .error e →
        createPass env forge σ (some o) = .error (.domain "CP_INIT_ERROR" ""))
    ∧ (∀ (o : FactoryOptions) (e : JsError), optionsKeysLen o ≠ 0 →
        readCertificatesFromOptions env forge o.certificates = .error e →
        createPass env forge σ (some o) = .error (.domain "CP_INIT_ERROR" "")) := by
  refine ⟨rfl, rfl, ?_, ?_⟩
  · intro o e h0 hm
    simp only [createPass]
    rw [show (optionsKeysLen o == 0) = false from beq_eq_false_iff_ne.mpr h0]
    simp only [hm, exceptBind_error]
    rfl
  · intro o e h0 hr
    simp only [createPass]
    rw [show (optionsKeysLen o == 0) = false from beq_eq_false_iff_ne.mpr h0]
    cases hm : getModelContents env σ o.model with
    | error e2 => simp only [hm, exceptBind_error]; rfl
    | ok b => simp only [hm, exceptBind_ok, hr, exceptBind_error]; rfl

/-- Environment and primitive for the C8 witness. -/
def envC8 : Env :=
  { resolve := fun s => s
    readDir := fun p => .error (.fsError "ENOENT" "scandir" p)
    readFile := fun p => .error (.fsError "ENOENT" "open" p)
    readFileUtf8 := fun p => .error (.fsError "ENOENT" "open" p) }

/-- A trivially succeeding PEM primitive for the C8 witness. -/
def forgeC8 : ForgeModel :=
  { certificateFromPem := fun s => .ok (some s)
    decryptRsaPrivateKey := fun k _ => .ok (some k) }

/-- Witness for C8: an invalid model input and an invalid certificate
spec each surface as `CP_INIT_ERROR`. -/
theorem c8_entry_point_witness :
    createPass envC8 forgeC8 []
        (some { model := some (.dirPath ""), certificates := none, overrides := none }) =
      .error (.domain "CP_INIT_ERROR" "")
    ∧ createPass envC8 forgeC8 []
        (some { model := none,
                certificates := some { wwdr := none, signerCert := none, signerKey := none },
                overrides := none }) =
      .error (.domain "CP_INIT_ERROR" "") := by
  constructor
  · exact (c8_entry_point envC8 forgeC8 []).2.2.1
      { model := some (.dirPath ""), certificates := none, overrides := none }
      (.domain "MODEL_NOT_VALID" "") (by decide) (by decide)
  · exact (c8_entry_point envC8 forgeC8 []).2.2.2
      { model := none,
        certificates := some { wwdr := none, signerCert := none, signerKey := none },
        overrides := none }
      (.domain "CP_NO_CERTS" "") (by decide) (by decide)
